import Mathlib

/-!
Verification of the `name-match` library: a shallow embedding of
`src/name-normalizer.js`, `src/enhanced-matcher.js` (class `EnhancedMatcher`,
the Structural Matcher) and `src/enhanced-natural-matcher.js`
(class `EnhancedNaturalMatcher`, the Combined Scorer), with theorems about
the behaviour of the embedded operations.

Modelling conventions:
- JavaScript strings are modelled as Lean `String` (a list of characters);
  all inputs in this code base are ASCII, where JS UTF-16 semantics and
  Lean character semantics agree.
- JS numbers are modelled as `ℚ` (exact arithmetic; every constant and
  every division appearing in the code is exactly representable).
- A thrown `TypeError` is modelled as `none` of an `Option` result.
- JS `null`/`undefined` name arguments behave exactly like `''` here:
  every entry point guards them with the same truthiness test (`!name`)
  before any other use, so the embedding takes `String` inputs and `""`
  stands for all falsy inputs.
-/

namespace NameMatch

/-! ## Character-level helpers for the JS string primitives -/

/-- The characters matched by `\s` in a JS regex (the ASCII ones; all inputs
in this code base are ASCII). Used by `replace(/\s+/g, ' ')` and `trim()`. -/
def isSpaceJS (c : Char) : Bool :=
  c = ' ' || c = '\t' || c = '\n' || c = '\r' || c = Char.ofNat 11 || c = Char.ofNat 12

/-- The characters matched by `\w` in a JS regex: `[A-Za-z0-9_]`. -/
def isWordChar (c : Char) : Bool :=
  ('a' ≤ c && c ≤ 'z') || ('A' ≤ c && c ≤ 'Z') || ('0' ≤ c && c ≤ '9') || c = '_'

/-- The apostrophe character `'` (written by code point to keep the source plain). -/
def apostrophe : Char := Char.ofNat 39

/-- JS `String.prototype.toLowerCase`, per character (ASCII range). -/
def toLowerJS (l : List Char) : List Char := l.map Char.toLower

/-- `replace(/[^\w\s'-]/g, ' ')`: every character that is not a word
character, whitespace, apostrophe, or hyphen becomes a single space. -/
def replaceSpecial (l : List Char) : List Char :=
  l.map fun c => if isWordChar c || isSpaceJS c || c = apostrophe || c = '-' then c else ' '

/-- `replace(/\s+/g, ' ')`: each maximal run of whitespace becomes one space. -/
def collapseSpaces : List Char → List Char
  | [] => []
  | [c] => [if isSpaceJS c then ' ' else c]
  | c1 :: c2 :: cs =>
    if isSpaceJS c1 && isSpaceJS c2 then collapseSpaces (c2 :: cs)
    else (if isSpaceJS c1 then ' ' else c1) :: collapseSpaces (c2 :: cs)

/-- JS `String.prototype.trim`: strip whitespace from both ends. -/
def jsTrim (l : List Char) : List Char :=
  ((l.dropWhile isSpaceJS).reverse.dropWhile isSpaceJS).reverse

/-- JS `str.split(sep)` for a single-character separator: `"".split(' ') = ['']`,
and empty segments between adjacent separators are kept. -/
def splitOnChar (sep : Char) : List Char → List (List Char)
  | [] => [[]]
  | c :: cs =>
    match splitOnChar sep cs with
    | [] => [[]]
    | seg :: rest => if c = sep then [] :: seg :: rest else (c :: seg) :: rest

/-- `normalized.split(' ')` producing Lean strings. -/
def splitOnSpaces (s : String) : List String :=
  (splitOnChar ' ' s.data).map fun l => String.mk l

/-- JS `[...new Set(l)]`: deduplicate keeping the first occurrence of each element. -/
def uniqueAux (seen : List String) : List String → List String
  | [] => []
  | x :: xs => if seen.contains x then uniqueAux seen xs else x :: uniqueAux (x :: seen) xs

/-- JS `[...new Set(l)]`. -/
def uniqueList (l : List String) : List String := uniqueAux [] l

/-- JS `parts.filter(Boolean).join(' ')` (empty strings dropped, rest joined
with single spaces). -/
def joinParts (l : List String) : String :=
  String.intercalate " " (l.filter fun s => s ≠ "")

/-- `part.replace(/\.$/, '')`: strip one trailing period. -/
def stripTrailingDot (s : String) : String :=
  if s.data.getLast? = some '.' then String.mk s.data.dropLast else s

/-! ## `name-normalizer.js` -/

namespace NameNormalizer

/-- The constant `PREFIXES` of `name-normalizer.js`. -/
def PREFIXES : List String := ["mr", "mrs", "ms", "miss", "dr", "prof", "rev", "hon"]

/-- The constant `SUFFIXES` of `name-normalizer.js`. -/
def SUFFIXES : List String := ["jr", "sr", "ii", "iii", "iv", "v", "md", "phd", "esq"]

/-- The constant `NAME_VARIATIONS` of `name-normalizer.js`, in source
(insertion) order, which is the order `Object.entries` iterates. -/
def NAME_VARIATIONS : List (String × List String) := [
  ("william", ["will", "bill", "billy", "willy"]),
  ("robert", ["rob", "bob", "bobby"]),
  ("richard", ["rick", "dick", "richie", "ricky"]),
  ("michael", ["mike", "mikey", "mick"]),
  ("james", ["jim", "jimmy", "jamie"]),
  ("joseph", ["joe", "joey", "jo"]),
  ("thomas", ["tom", "tommy"]),
  ("christopher", ["chris", "topher"]),
  ("charles", ["chuck", "charlie", "chas"]),
  ("daniel", ["dan", "danny"]),
  ("matthew", ["matt", "matty"]),
  ("anthony", ["tony", "ant"]),
  ("steven", ["steve", "stevie"]),
  ("kenneth", ["ken", "kenny"]),
  ("edward", ["ed", "eddie", "ted", "teddy"]),
  ("donald", ["don", "donny"]),
  ("elizabeth", ["liz", "lizzy", "beth", "betty", "eli"]),
  ("jennifer", ["jen", "jenny"]),
  ("katherine", ["kathy", "kate", "katie", "katy"]),
  ("margaret", ["maggie", "meg", "megan", "peggy"]),
  ("patricia", ["pat", "patty", "trish"]),
  ("deborah", ["deb", "debbie"]),
  ("jessica", ["jess", "jessie"]),
  ("sandra", ["sandy"]),
  ("barbara", ["barb", "barbie"]),
  ("stephanie", ["steph", "stephy"]),
  ("victoria", ["vicky", "tori"]),
  ("jonathan", ["jon", "jonny"]),
  ("nicholas", ["nick", "nicky"]),
  ("jeffrey", ["jeff"]),
  ("benjamin", ["ben", "benny"]),
  ("timothy", ["tim", "timmy"]),
  ("gregory", ["greg", "gregg"]),
  ("raymond", ["ray"]),
  ("samuel", ["sam", "sammy"]),
  ("andrew", ["andy", "drew"]),
  ("alexander", ["alex", "al"]),
  ("david", ["dave", "davey"]),
  ("joshua", ["josh"])]

/-- JS property read `NAME_VARIATIONS[key]` restricted to own keys.
`none` when the key is not an own property of the object literal. -/
def lookupVariations (key : String) : Option (List String) :=
  (NAME_VARIATIONS.find? fun e => e.1 = key).map fun e => e.2

/-- JS object property reads go through the prototype chain: on the
`NAME_VARIATIONS` object literal, the keys `"constructor"` and `"__proto__"`
hit inherited members of `Object.prototype` (the only two inherited member
names that are all-lowercase and therefore reachable from a cleaned token).
The resulting value is truthy but not iterable, so
`firstNameVariations.push(...NAME_VARIATIONS[k])` throws a `TypeError`. -/
def inheritedTrap (key : String) : Bool :=
  key = "constructor" || key = "__proto__"

/-- `cleanName` of `name-normalizer.js`: falsy input gives `''`; otherwise
lowercase, replace `[^\w\s'-]` by a space, collapse whitespace runs, trim. -/
def cleanName (name : String) : String :=
  if name = "" then ""
  else String.mk (jsTrim (collapseSpaces (replaceSpecial (toLowerJS name.data))))

/-- The `initials` record of a `ParsedName`. -/
structure Initials where
  first : String
  middle : String
  last : String
deriving DecidableEq, Repr

/-- A fully populated parse result of `parseName` (the non-degenerate branch). -/
structure ParsedName where
  original : String
  cleaned : String
  normalized : String
  prefixes : List String
  firstName : String
  middleNames : List String
  lastName : String
  suffixes : List String
  initials : Initials
deriving DecidableEq, Repr

/-- Is the (trailing-period-stripped) token a recognized prefix? -/
def isPrefixTok (t : String) : Bool := PREFIXES.contains (stripTrailingDot t)

/-- Is the (trailing-period-stripped) token a recognized suffix? -/
def isSuffixTok (t : String) : Bool := SUFFIXES.contains (stripTrailingDot t)

/-- The non-degenerate body of `parseName` (reached when the input is truthy).
The source classifies `allParts` with a single `if / else if / else` loop
into `prefixes` / `suffixes` / `mainParts`; that loop is written here as
three order-preserving filters with the same mutually exclusive conditions. -/
def parseNameFull (name : String) : ParsedName :=
  let commaParts := (splitOnChar ',' name.data).map fun seg => String.mk (jsTrim seg)
  let reordered : String :=
    if name.data.contains ',' then
      match commaParts with
      | p0 :: p1 :: _ => p1 ++ " " ++ p0
      | _ => name
    else name
  let normalized := cleanName reordered
  let allParts := splitOnSpaces normalized
  let prefixes := allParts.filter fun t => isPrefixTok t
  let suffixes := allParts.filter fun t => !isPrefixTok t && isSuffixTok t
  let mainParts := allParts.filter fun t => !isPrefixTok t && !isSuffixTok t
  let firstName := if 0 < mainParts.length then mainParts.getD 0 "" else ""
  let lastName := if 1 < mainParts.length then mainParts.getD (mainParts.length - 1) "" else ""
  let middleNames := if 2 < mainParts.length then (mainParts.drop 1).dropLast else []
  { original := name
    cleaned := normalized
    normalized := normalized
    prefixes := prefixes
    firstName := firstName
    middleNames := middleNames
    lastName := lastName
    suffixes := suffixes
    initials :=
    { first := String.mk (firstName.data.take 1)
      middle := (middleNames.map fun n => String.mk (n.data.take 1)).foldl (· ++ ·) ""
      last := String.mk (lastName.data.take 1) } }

/-- The value returned by `parseName`. On falsy input the source returns the
object literal `{ original: '', parts: [] }`, which has none of the
`ParsedName` fields (they all read as `undefined`); `degenerate` models that
object. -/
inductive JsParse where
  | degenerate
  | parsed (p : ParsedName)
deriving DecidableEq, Repr

/-- `parseName` of `name-normalizer.js`. -/
def parseName (name : String) : JsParse :=
  if name = "" then JsParse.degenerate else JsParse.parsed (parseNameFull name)

/-- `standardizeName` of `name-normalizer.js`:
`[firstName, ...middleNames, lastName].filter(Boolean).join(' ')`.
On falsy input `parseName` returns the degenerate object, whose
`middleNames` is `undefined`, and the spread `...parsed.middleNames`
throws a `TypeError` (modelled as `none`). -/
def standardizeName (name : String) : Option String :=
  match parseName name with
  | JsParse.degenerate => none
  | JsParse.parsed parsed =>
    some (joinParts ([parsed.firstName] ++ parsed.middleNames ++ [parsed.lastName]))

/-- `getNameVariations` of `name-normalizer.js`. `none` models the two ways
the source throws a `TypeError`: `standardizeName` on a falsy input, and the
`push(...NAME_VARIATIONS[firstName])` spread on an inherited (non-iterable)
property of the object literal, see `inheritedTrap`. -/
def getNameVariations (name : String) : Option (List String) :=
  match parseName name, standardizeName name with
  | JsParse.parsed parsed, some std =>
    if inheritedTrap parsed.firstName then none
    else
      let firstNameVariations :=
        [parsed.firstName]
        ++ (match lookupVariations parsed.firstName with
            | some nicknames => nicknames
            | none => [])
        ++ ((NAME_VARIATIONS.filter fun e => e.2.contains parsed.firstName).map fun e => e.1)
      let fullForms := firstNameVariations.map fun fv =>
        joinParts ([fv] ++ parsed.middleNames ++ [parsed.lastName])
      let middleInitialForms :=
        if 0 < parsed.middleNames.length then
          [joinParts [parsed.firstName, parsed.initials.middle, parsed.lastName]]
          ++ ((firstNameVariations.filter fun fv => fv ≠ parsed.firstName).map fun fv =>
                joinParts [fv, parsed.initials.middle, parsed.lastName])
        else []
      let noMiddleForms :=
        [joinParts [parsed.firstName, parsed.lastName]]
        ++ ((firstNameVariations.filter fun fv => fv ≠ parsed.firstName).map fun fv =>
              joinParts [fv, parsed.lastName])
      some (uniqueList ([std] ++ fullForms ++ middleInitialForms ++ noMiddleForms))
  | _, _ => none

/-- `normalizeNameOrder` of `name-normalizer.js`: `parseName(name).normalized`.
On falsy input the degenerate parse has no `normalized` field, and the JS
function returns `undefined` (modelled as `none`). -/
def normalizeNameOrder (name : String) : Option String :=
  match parseName name with
  | JsParse.degenerate => none
  | JsParse.parsed p => some p.normalized

end NameNormalizer

/-! ## `enhanced-matcher.js`: the Structural Matcher (`class EnhancedMatcher`) -/

namespace EnhancedMatcher

open NameNormalizer

/-- `this.stopwords` from the `EnhancedMatcher` constructor. -/
def stopwords : List String := ["and", "or", "the", "de", "la", "del", "van", "von", "der"]

/-- `this.prefixes` from the `EnhancedMatcher` constructor (note: a shorter
list than the normalizer's `PREFIXES` — no `rev`/`hon`). -/
def matcherPrefixes : List String := ["mr", "mrs", "ms", "miss", "dr", "prof"]

/-- `this.suffixes` from the `EnhancedMatcher` constructor. -/
def matcherSuffixes : List String := ["jr", "sr", "ii", "iii", "iv", "v", "phd", "md", "esq"]

/-- The comparison structure built by `normalizeNameForComparison`. -/
structure NormalizedNameStructure where
  original : String
  normalized : String
  tokens : List String
  firstName : String
  middleNames : List String
  lastName : String
  initials : Initials
  firstNameVariations : List String
deriving DecidableEq, Repr

/-- `normalizeNameForComparison` of `enhanced-matcher.js`. `none` models a
thrown `TypeError`: on falsy input `parseName` returns the degenerate object
and `parsed.normalized.split(' ')` throws, and when the parsed `firstName`
is empty (input all prefixes/suffixes, or cleaned to nothing) the nested
`getNameVariations('')` throws. -/
def normalizeNameForComparison (name : String) : Option NormalizedNameStructure :=
  match parseName name with
  | JsParse.degenerate => none
  | JsParse.parsed parsed =>
    let tokens := (splitOnSpaces parsed.normalized).filter fun token =>
      token ≠ "" && !stopwords.contains token
        && !matcherPrefixes.contains token && !matcherSuffixes.contains token
    (getNameVariations parsed.firstName).map fun fnv =>
      { original := name
        normalized := parsed.normalized
        tokens := tokens
        firstName := parsed.firstName
        middleNames := parsed.middleNames
        lastName := parsed.lastName
        initials := parsed.initials
        firstNameVariations := fnv }

/-- `exactMatchScore`: 1 on identical `normalized`, else 0.9 when both sides
have nonempty and pairwise equal first and last names, else 0. -/
def exactMatchScore (name1 name2 : NormalizedNameStructure) : ℚ :=
  if name1.normalized = name2.normalized then 1
  else if name1.firstName ≠ "" && name2.firstName ≠ ""
      && name1.lastName ≠ "" && name2.lastName ≠ ""
      && name1.firstName = name2.firstName && name1.lastName = name2.lastName then
    9/10
  else 0

/-- `tokenSetScore`: Jaccard similarity of the two token sets (JS `Set`
semantics: duplicates collapse; 0 when the union is empty). -/
def tokenSetScore (name1 name2 : NormalizedNameStructure) : ℚ :=
  let tokens1 := uniqueList name1.tokens
  let tokens2 := uniqueList name2.tokens
  let intersection := tokens1.filter fun x => tokens2.contains x
  let union := uniqueList (tokens1 ++ tokens2)
  if union.length = 0 then 0 else (intersection.length : ℚ) / (union.length : ℚ)

/-- JS `s.charAt(0)` compared with `===`: the empty string's `charAt(0)` is
`''`, which is equal to `''` and different from every 1-character string.
`List.head?` has exactly these equality semantics. -/
def charAt0 (s : String) : Option Char := s.data.head?

/-- `initialsMatchScore`: requires at least one token on both sides; 0.7 when
first-name initials and last-name initials both agree, 0.4 when only the
first-name initials agree, else 0. -/
def initialsMatchScore (name1 name2 : NormalizedNameStructure) : ℚ :=
  if 0 < name1.tokens.length && 0 < name2.tokens.length then
    if charAt0 name1.firstName = charAt0 name2.firstName then
      if charAt0 name1.lastName = charAt0 name2.lastName then 7/10 else 2/5
    else 0
  else 0

/-- One step of the Wagner–Fischer matrix fill of `editDistanceScore`
(`matrix[i][j] = min(matrix[i-1][j]+1, matrix[i][j-1]+1, matrix[i-1][j-1]+cost)`),
carried along row `i`: `ys` are the remaining characters of the second
string, `prev` the rest of row `i-1`, `dDiag` the entry `matrix[i-1][j-1]`,
and `cur` the entry `matrix[i][j-1]` already computed. -/
def levAux (c : Char) : List Char → List ℕ → ℕ → ℕ → List ℕ
  | [], _, _, cur => [cur]
  | _ :: _, [], _, cur => [cur]
  | y :: ys, dUp :: prevRest, dDiag, cur =>
    let cost := if c = y then 0 else 1
    let next := min (cur + 1) (min (dUp + 1) (dDiag + cost))
    cur :: levAux c ys prevRest dUp next

/-- Row `i` of the Wagner–Fischer matrix from row `i-1` (`matrix[i][0] = i`). -/
def levStep (t : List Char) (prevRow : List ℕ) (c : Char) : List ℕ :=
  match prevRow with
  | [] => []
  | d0 :: rest => levAux c t rest d0 (d0 + 1)

/-- The Levenshtein distance as implemented inside `editDistanceScore`
(lines 152–176 of `enhanced-matcher.js`): the full matrix is filled row by
row from `matrix[i][0] = i`, `matrix[0][j] = j`, and the result is the last
entry of the last row. -/
def levenshteinJS (s t : List Char) : ℕ :=
  (s.foldl (levStep t) (List.range (t.length + 1))).getLastD 0

/-- `editDistanceScore`: 0 when either `normalized` string is falsy (empty),
else `1 - distance / maxLength` (the `maxLength > 0` ternary is kept from
the source, although both strings are nonempty at that point). -/
def editDistanceScore (name1 name2 : NormalizedNameStructure) : ℚ :=
  let str1 := name1.normalized
  let str2 := name2.normalized
  if str1 = "" || str2 = "" then 0
  else
    let distance := levenshteinJS str1.data str2.data
    let maxLength := max str1.length str2.length
    if 0 < maxLength then 1 - (distance : ℚ) / (maxLength : ℚ) else 1

/-- `EnhancedMatcher.getSimilarity`: normalize both names, evaluate the four
strategies in source order, and fold `Math.max` starting from `bestScore = 0`.
`none` models the `TypeError` thrown by `normalizeNameForComparison`. -/
def getSimilarity (name1 name2 : String) : Option ℚ :=
  match normalizeNameForComparison name1, normalizeNameForComparison name2 with
  | some normalized1, some normalized2 =>
    some ([exactMatchScore normalized1 normalized2,
           tokenSetScore normalized1 normalized2,
           initialsMatchScore normalized1 normalized2,
           editDistanceScore normalized1 normalized2].foldl max 0)
  | _, _ => none

end EnhancedMatcher

/-! ## `enhanced-natural-matcher.js`: the Combined Scorer
(`class EnhancedNaturalMatcher`) -/

/-- Modelled from the spec: the external `natural` string-distance capability
is a black box ("given two strings, return a normalized similarity in
`[0,1]`"; the Levenshtein entry returns an edit distance). The combined
scorer is parameterized over it. -/
structure StringDistanceAlgos where
  jaroWinkler : String → String → ℚ
  diceCoefficient : String → String → ℚ
  levenshteinDistance : String → String → ℕ

/-- `parseFloat(x.toFixed(2))`: round to 2 decimal places, ties away from
zero toward the larger value (ECMAScript `toFixed` picks the larger
candidate on ties, which for the nonnegative scores here is `⌊x*100 + 1/2⌋`,
Mathlib's `round`). -/
def round2 (q : ℚ) : ℚ := (round (q * 100) : ℤ) / 100

namespace EnhancedNaturalMatcher

/-- `getNaturalScore`: 0 on falsy input, else the best of Jaro–Winkler, Dice,
and the Levenshtein-derived similarity `1 - distance / maxLength` (with the
source's dead `maxLength > 0` guard kept). -/
def getNaturalScore (A : StringDistanceAlgos) (name1 name2 : String) : ℚ :=
  if name1 = "" || name2 = "" then 0
  else
    let maxLength := max name1.length name2.length
    let levenshteinSimilarity :=
      if 0 < maxLength then 1 - (A.levenshteinDistance name1 name2 : ℚ) / (maxLength : ℚ)
      else 1
    max (A.jaroWinkler name1 name2) (max (A.diceCoefficient name1 name2) levenshteinSimilarity)

/-- An `EnhancedNaturalMatcher` instance holds only the threshold fixed by
its constructor. -/
structure Matcher where
  threshold : ℚ
deriving DecidableEq, Repr

/-- The constructor `new EnhancedNaturalMatcher(options)`:
`this.threshold = options.threshold || 0.75`. `none` models an absent
`options.threshold` (`undefined`); a configured threshold of `0` is falsy in
JS, so `0 || 0.75` also yields the default. -/
def create (thresholdOpt : Option ℚ) : Matcher :=
  { threshold :=
      match thresholdOpt with
      | none => 3/4
      | some t => if t = 0 then 3/4 else t }

/-- `EnhancedNaturalMatcher.getSimilarity`: 0 if either input is falsy, 1 if
the raw inputs are identical, else the average of the natural score and the
structural score, rounded to 2 decimals. `none` models the `TypeError`
propagated out of `EnhancedMatcher.getSimilarity`. -/
def getSimilarity (A : StringDistanceAlgos) (name1 name2 : String) : Option ℚ :=
  if name1 = "" || name2 = "" then some 0
  else if name1 = name2 then some 1
  else
    let naturalScore := getNaturalScore A name1 name2
    (EnhancedMatcher.getSimilarity name1 name2).map fun enhancedScore =>
      round2 ((naturalScore + enhancedScore) / 2)

/-- `EnhancedNaturalMatcher.isMatch`: `getSimilarity(...) >= this.threshold`. -/
def isMatch (A : StringDistanceAlgos) (m : Matcher) (name1 name2 : String) : Option Bool :=
  (getSimilarity A name1 name2).map fun score => decide (m.threshold ≤ score)

/-- One `{name1, name2, similarity}` entry of a group match result. -/
structure MatchEntry where
  name1 : String
  name2 : String
  similarity : ℚ
deriving DecidableEq, Repr

/-- The result of `matchNameGroup`. -/
structure GroupMatchResult where
  score : ℚ
  «matches» : List MatchEntry
  isMatch : Bool
deriving DecidableEq, Repr

/-- The pairs `(group[i], group[j])`, `i < j`, in the enumeration order of the
source's nested loops: outer index ascending, inner index ascending. -/
def pairsOf : List α → List (α × α)
  | [] => []
  | x :: xs => (xs.map fun y => (x, y)) ++ pairsOf xs

/-- Evaluate an `Option`-returning function over a list, aborting on the
first `none` — the JS loop body runs left to right and a thrown `TypeError`
aborts the whole loop. -/
def mapOption (f : α → Option β) : List α → Option (List β)
  | [] => some []
  | a :: l =>
    match f a, mapOption f l with
    | some b, some bs => some (b :: bs)
    | _, _ => none

/-- `EnhancedNaturalMatcher.matchNameGroup`: groups of size ≤ 1 yield
`{score: 1, matches: [], isMatch: true}`; otherwise every `i < j` pair is
scored with the combined `getSimilarity`, and the rounded mean of the
pairwise similarities is compared against the threshold. -/
def matchNameGroup (A : StringDistanceAlgos) (m : Matcher) (nameGroup : List String) :
    Option GroupMatchResult :=
  if nameGroup.length ≤ 1 then some { score := 1, «matches» := [], isMatch := true }
  else
    match mapOption
        (fun p => (getSimilarity A p.1 p.2).map fun s =>
          { name1 := p.1, name2 := p.2, similarity := s : MatchEntry })
        (pairsOf nameGroup) with
    | none => none
    | some entries =>
      let totalScore := (entries.map fun e => e.similarity).sum
      let pairCount := entries.length
      let averageScore := round2 (totalScore / (pairCount : ℚ))
      some { score := averageScore
             «matches» := entries
             isMatch := decide (m.threshold ≤ averageScore) }

end EnhancedNaturalMatcher

/-- A trivial instantiation of the external string-distance capability, used
to exercise the parameterized theorems on concrete inputs. -/
def zeroAlgos : StringDistanceAlgos :=
  { jaroWinkler := fun _ _ => 0
    diceCoefficient := fun _ _ => 0
    levenshteinDistance := fun _ _ => 0 }

/-! ## Shared lemmas -/

open NameNormalizer

/-- A nonempty string has positive length. -/
theorem length_pos_of_ne_empty {s : String} (h : s ≠ "") : 0 < s.length := by
  cases s with
  | mk data =>
    cases data with
    | nil => exact absurd rfl h
    | cons a l => simp [String.length]

/-- Evaluation of the comparison structure of the one-letter name `"x"`. -/
theorem normalizeNameForComparison_x :
    EnhancedMatcher.normalizeNameForComparison "x" =
      some { original := "x", normalized := "x", tokens := ["x"], firstName := "x",
             middleNames := [], lastName := "",
             initials := { first := "x", middle := "", last := "" },
             firstNameVariations := ["x"] } := by
  decide

/-- Evaluation of the comparison structure of the one-letter name `"y"`. -/
theorem normalizeNameForComparison_y :
    EnhancedMatcher.normalizeNameForComparison "y" =
      some { original := "y", normalized := "y", tokens := ["y"], firstName := "y",
             middleNames := [], lastName := "",
             initials := { first := "y", middle := "", last := "" },
             firstNameVariations := ["y"] } := by
  decide

/-- Combined score of `"x"` vs `"y"` under the trivial external capability:
the natural score is 1 (Levenshtein similarity `1 - 0/1`), every structural
strategy scores 0, and the rounded mean is `0.5`. -/
theorem getSimilarity_x_y :
    EnhancedNaturalMatcher.getSimilarity zeroAlgos "x" "y" = some (1/2) := by
  norm_num +decide [EnhancedNaturalMatcher.getSimilarity,
    EnhancedNaturalMatcher.getNaturalScore, EnhancedMatcher.getSimilarity,
    normalizeNameForComparison_x, normalizeNameForComparison_y,
    EnhancedMatcher.exactMatchScore, EnhancedMatcher.tokenSetScore,
    EnhancedMatcher.initialsMatchScore, EnhancedMatcher.editDistanceScore,
    EnhancedMatcher.charAt0, uniqueList, uniqueAux, EnhancedMatcher.levenshteinJS,
    EnhancedMatcher.levStep, EnhancedMatcher.levAux, zeroAlgos, round2, round_eq,
    max_def, min_def, List.range_succ, String.length]

/-! ## C2 — totality of the core operations on degenerate input -/

/-- C2: the claim says every core operation is total and never raises, with
degenerate inputs yielding a defined zero/empty result. The code contradicts
this (and its own docs, which promise "comprehensive error handling"):
`parseName('')` returns the degenerate `{original:'', parts:[]}` object, so
`standardizeName('')` and `getNameVariations('')` throw a `TypeError`
(spread of the `undefined` field `middleNames`), `normalizeNameOrder('')`
returns `undefined` rather than a string, and the structural matcher's
`getSimilarity` throws both on an empty input and on a nonempty input whose
parsed first name is empty (such as the bare honorific `"mr"`). Only
`cleanName` behaves as claimed. -/
theorem coreOps_empty_input_fault :
    cleanName "" = "" ∧
    parseName "" = JsParse.degenerate ∧
    standardizeName "" = none ∧
    getNameVariations "" = none ∧
    normalizeNameOrder "" = none ∧
    EnhancedMatcher.getSimilarity "" "John Smith" = none ∧
    EnhancedMatcher.getSimilarity "mr" "john" = none :=
  ⟨rfl, rfl, rfl, rfl, rfl, rfl, rfl⟩

/-! ## C3 — the shape of `parseName` on empty input -/

/-- C3: the claim says `parseName` returns, on null/empty input, a
ParsedName-shaped value with `original = ''` and all other components
present and empty. The code instead returns the object literal
`{ original: '', parts: [] }`: none of the components `cleaned`,
`normalized`, `prefixes`, `firstName`, `middleNames`, `lastName`,
`suffixes`, `initials` is present (they all read as `undefined`), which is
what makes the downstream core functions throw. `JsParse.degenerate` models
exactly that object, and in particular reading `normalized` from it yields
no string. -/
theorem parseName_empty_shape :
    parseName "" = JsParse.degenerate ∧
    (∀ p : ParsedName, parseName "" ≠ JsParse.parsed p) ∧
    normalizeNameOrder "" = none :=
  ⟨rfl, fun _ h => JsParse.noConfusion h, rfl⟩

/-! ## C4 — reflexivity of the combined `getSimilarity` -/

/-- C4 counterexample: the claim asserts `getSimilarity(s, s) = 1` for every
string `s` including the empty string, but the falsy guard fires first:
`getSimilarity('', '') = 0`. (The repo's own test suite asserts this `0`.) -/
theorem getSimilarity_empty_self_counterexample :
    EnhancedNaturalMatcher.getSimilarity zeroAlgos "" "" = some 0 ∧ (0 : ℚ) ≠ 1 :=
  ⟨rfl, by norm_num⟩

/-- C4 amended: for every nonempty string `s` (and any external
string-distance capability), the combined `getSimilarity(s, s)` is 1; the
empty string instead falls into the falsy guard and scores 0. -/
theorem getSimilarity_self_of_ne_empty (A : StringDistanceAlgos) (s : String) (h : s ≠ "") :
    EnhancedNaturalMatcher.getSimilarity A s s = some 1 := by
  unfold EnhancedNaturalMatcher.getSimilarity
  simp [h]

/-- Witness for C4's amended theorem at `s = "John Smith"`. -/
theorem getSimilarity_self_of_ne_empty_witness :
    ("John Smith" : String) ≠ "" ∧
    EnhancedNaturalMatcher.getSimilarity zeroAlgos "John Smith" "John Smith" = some 1 :=
  ⟨by decide, getSimilarity_self_of_ne_empty zeroAlgos "John Smith" (by decide)⟩

/-! ## C5 — the edit-distance strategy -/

/-- C5 counterexample: the claim says the strategy "yields 1 when both
normalized strings are empty", but the falsy guard `if (!str1 || !str2)
return 0` fires before the `maxLength > 0 ? ... : 1` ternary, so two
structures whose `normalized` strings are both empty score 0, not 1. -/
theorem editDistanceScore_both_empty_counterexample :
    EnhancedMatcher.editDistanceScore
      { original := "", normalized := "", tokens := [], firstName := "",
        middleNames := [], lastName := "", initials := { first := "", middle := "", last := "" },
        firstNameVariations := [] }
      { original := "", normalized := "", tokens := [], firstName := "",
        middleNames := [], lastName := "", initials := { first := "", middle := "", last := "" },
        firstNameVariations := [] } = 0 ∧
    (0 : ℚ) ≠ 1 :=
  ⟨rfl, by norm_num⟩

/-- C5 amended: the edit-distance strategy returns 0 whenever either
structure's `normalized` string is empty (including when both are — the
"1 if both empty" branch of the source is unreachable), and otherwise
returns `1 − (Levenshtein distance between the normalized strings ÷ max of
their lengths)`. -/
theorem editDistanceScore_spec (n1 n2 : EnhancedMatcher.NormalizedNameStructure) :
    ((n1.normalized = "" ∨ n2.normalized = "") →
      EnhancedMatcher.editDistanceScore n1 n2 = 0) ∧
    (n1.normalized ≠ "" → n2.normalized ≠ "" →
      EnhancedMatcher.editDistanceScore n1 n2 =
        1 - (EnhancedMatcher.levenshteinJS n1.normalized.data n2.normalized.data : ℚ) /
            (max n1.normalized.length n2.normalized.length : ℚ)) := by
  constructor
  · intro h
    unfold EnhancedMatcher.editDistanceScore
    rcases h with h | h <;> simp [h]
  · intro h1 h2
    have hpos : 0 < max n1.normalized.length n2.normalized.length :=
      lt_max_of_lt_left (length_pos_of_ne_empty h1)
    unfold EnhancedMatcher.editDistanceScore
    simp [h1, h2, hpos]

/-- Witness for C5's amended theorem: both branches at concrete structures
(`normalized` strings `""`/`"b"` for the guard, `"ab"`/`"b"` for the
distance formula, where the Levenshtein distance is 1 and the max length 2). -/
theorem editDistanceScore_spec_witness :
    EnhancedMatcher.editDistanceScore
      { original := "", normalized := "", tokens := [], firstName := "",
        middleNames := [], lastName := "", initials := { first := "", middle := "", last := "" },
        firstNameVariations := [] }
      { original := "", normalized := "b", tokens := [], firstName := "",
        middleNames := [], lastName := "", initials := { first := "", middle := "", last := "" },
        firstNameVariations := [] } = 0 ∧
    EnhancedMatcher.editDistanceScore
      { original := "", normalized := "ab", tokens := [], firstName := "",
        middleNames := [], lastName := "", initials := { first := "", middle := "", last := "" },
        firstNameVariations := [] }
      { original := "", normalized := "b", tokens := [], firstName := "",
        middleNames := [], lastName := "", initials := { first := "", middle := "", last := "" },
        firstNameVariations := [] } =
      1 - (EnhancedMatcher.levenshteinJS "ab".data "b".data : ℚ) /
          (max ("ab" : String).length ("b" : String).length : ℚ) :=
  ⟨(editDistanceScore_spec _ _).1 (Or.inl rfl),
   (editDistanceScore_spec _ _).2 (by decide) (by decide)⟩

/-! ## C6 — comma reordering in `parseName` -/

/-- C6 counterexample: the claim says `parseName` "splits on the first comma
into exactly two segments". On `"a, b, c"` that reading would reorder the
two segments `"a"` and `"b, c"` into `"b, c a"` and clean it to `"b c a"`;
the code instead splits on every comma and keeps only the first two
segments, producing `"b a"` (the text after the second comma is dropped). -/
theorem parseName_first_comma_counterexample :
    normalizeNameOrder "a, b, c" = some "b a" ∧
    cleanName "b, c a" = "b c a" ∧
    ("b a" : String) ≠ "b c a" :=
  ⟨rfl, rfl, by decide⟩

/-- The trimmed comma segments of an input: `name.split(',').map(p => p.trim())`. -/
def commaSegments (name : String) : List String :=
  (splitOnChar ',' name.data).map fun seg => String.mk (jsTrim seg)

/-- C6 amended: for every input containing a comma, `parseName` splits on
every comma, trims each segment, and uses only the first two segments,
treating the string as `"secondSegment firstSegment"` before cleaning (text
after a second comma is discarded); splitting a comma-containing string
always produces at least 2 segments, so reordering always occurs. In
particular `parseName("Smith, John").normalized` and
`parseName("John Smith").normalized` are both `"john smith"`. -/
theorem parseName_comma_reorder :
    (∀ name : String, name.data.contains ',' = true →
      ∀ s0 s1 : String,
        (commaSegments name)[0]? = some s0 →
        (commaSegments name)[1]? = some s1 →
        normalizeNameOrder name = some (cleanName (s1 ++ " " ++ s0))) ∧
    normalizeNameOrder "Smith, John" = some "john smith" ∧
    normalizeNameOrder "John Smith" = some "john smith" := by
  refine ⟨?_, rfl, rfl⟩
  intro name hc s0 s1 h0 h1
  have hne : name ≠ "" := by
    intro he
    subst he
    simp at hc
  obtain ⟨t, hseg⟩ : ∃ t, commaSegments name = s0 :: s1 :: t := by
    cases hcp : commaSegments name with
    | nil => rw [hcp] at h0; simp at h0
    | cons a l =>
      cases l with
      | nil => rw [hcp] at h1; simp at h1
      | cons b l2 =>
        rw [hcp] at h0 h1
        simp at h0 h1
        exact ⟨l2, by rw [h0, h1]⟩
  unfold normalizeNameOrder parseName
  rw [if_neg hne]
  unfold parseNameFull
  have hseg' : (splitOnChar ',' name.data).map (fun seg => String.mk (jsTrim seg)) =
      s0 :: s1 :: t := hseg
  simp only [hseg', hc, if_pos]

/-- Witness for C6's amended theorem at `"Smith, John"`. -/
theorem parseName_comma_reorder_witness :
    ("Smith, John" : String).data.contains ',' = true ∧
    (commaSegments "Smith, John")[0]? = some "Smith" ∧
    (commaSegments "Smith, John")[1]? = some "John" ∧
    normalizeNameOrder "Smith, John" = some (cleanName ("John" ++ " " ++ "Smith")) :=
  ⟨by decide, by decide, by decide,
   parseName_comma_reorder.1 "Smith, John" (by decide) "Smith" "John" (by decide) (by decide)⟩

/-! ## C8 — threshold configuration and `isMatch` -/

/-- C8 counterexample: the claim quantifies over every configured threshold,
but the constructor reads `options.threshold || 0.75`, and `0` is falsy in
JS: a scorer configured with threshold `0` actually uses `0.75`. With the
trivial external capability, `getSimilarity("x", "y") = 0.5 ≥ 0`, yet
`isMatch("x", "y")` is `false`. -/
theorem isMatch_zero_threshold_counterexample :
    EnhancedNaturalMatcher.isMatch zeroAlgos
      (EnhancedNaturalMatcher.create (some 0)) "x" "y" = some false ∧
    EnhancedNaturalMatcher.getSimilarity zeroAlgos "x" "y" = some (1/2) ∧
    (0 : ℚ) ≤ 1/2 :=
  ⟨by norm_num [EnhancedNaturalMatcher.isMatch, getSimilarity_x_y,
      EnhancedNaturalMatcher.create],
   getSimilarity_x_y, by norm_num⟩

/-- C8 amended: the threshold is fixed at construction (default 0.75 when no
threshold is configured; a configured threshold of `0` is falsy in JS and
is replaced by the default as well), and for every pair of names `isMatch`
returns `getSimilarity(...) >= threshold` for that fixed threshold. -/
theorem isMatch_threshold_spec (A : StringDistanceAlgos) (t : ℚ) (a b : String) :
    (EnhancedNaturalMatcher.create none).threshold = 3/4 ∧
    (t ≠ 0 → (EnhancedNaturalMatcher.create (some t)).threshold = t) ∧
    (∀ m : EnhancedNaturalMatcher.Matcher, ∀ q : ℚ,
      EnhancedNaturalMatcher.getSimilarity A a b = some q →
      EnhancedNaturalMatcher.isMatch A m a b = some (decide (m.threshold ≤ q))) := by
  refine ⟨rfl, ?_, ?_⟩
  · intro ht
    simp [EnhancedNaturalMatcher.create, ht]
  · intro m q h
    simp [EnhancedNaturalMatcher.isMatch, h]

/-- Witness for C8's amended theorem: a matcher configured with threshold
0.9 on the pair `("x", "y")`, whose combined score is 0.5. -/
theorem isMatch_threshold_spec_witness :
    ((9 : ℚ)/10 ≠ 0) ∧
    (EnhancedNaturalMatcher.create (some (9/10))).threshold = 9/10 ∧
    EnhancedNaturalMatcher.getSimilarity zeroAlgos "x" "y" = some (1/2) ∧
    EnhancedNaturalMatcher.isMatch zeroAlgos
      (EnhancedNaturalMatcher.create (some (9/10))) "x" "y" =
      some (decide ((EnhancedNaturalMatcher.create (some (9/10))).threshold ≤ (1/2 : ℚ))) :=
  ⟨by norm_num,
   (isMatch_threshold_spec zeroAlgos (9/10) "x" "y").2.1 (by norm_num),
   getSimilarity_x_y,
   (isMatch_threshold_spec zeroAlgos (9/10) "x" "y").2.2
     (EnhancedNaturalMatcher.create (some (9/10))) (1/2) getSimilarity_x_y⟩

/-! ## C1 — structure of the combined `getSimilarity` -/

/-- C1: the Combined Scorer's `getSimilarity` returns 0 if either input is
falsy; 1 if the raw inputs are identical (the falsy check fires first, so
this case requires nonempty inputs); and otherwise the arithmetic mean of
the generic score (`getNaturalScore`: max of Jaro–Winkler, Dice, and
Levenshtein-derived similarity from the external capability) and the
structural score, rounded to 2 decimals — *whenever the structural matcher
produces a score*. The claim is right about the intended behaviour, but the
code throws a `TypeError` instead of returning the mean when a (nonempty,
non-identical) input's parsed first name is empty: the last conjunct
evaluates the scorer at the bare honorific `"mr"` against `"john"`, where
the structural matcher (and hence the combined scorer) faults. -/
theorem combined_getSimilarity_spec (A : StringDistanceAlgos) (name1 name2 : String) :
    (name1 = "" ∨ name2 = "" →
      EnhancedNaturalMatcher.getSimilarity A name1 name2 = some 0) ∧
    (name1 ≠ "" → name2 ≠ "" → name1 = name2 →
      EnhancedNaturalMatcher.getSimilarity A name1 name2 = some 1) ∧
    (name1 ≠ "" → name2 ≠ "" → name1 ≠ name2 →
      EnhancedNaturalMatcher.getSimilarity A name1 name2 =
        (EnhancedMatcher.getSimilarity name1 name2).map fun enhancedScore =>
          round2 ((EnhancedNaturalMatcher.getNaturalScore A name1 name2 + enhancedScore) / 2)) ∧
    EnhancedNaturalMatcher.getSimilarity A "mr" "john" = none := by
  refine ⟨?_, ?_, ?_, ?_⟩
  · intro h
    unfold EnhancedNaturalMatcher.getSimilarity
    rcases h with h | h <;> simp [h]
  · intro h1 h2 he
    unfold EnhancedNaturalMatcher.getSimilarity
    simp [h1, h2, he]
  · intro h1 h2 hne
    unfold EnhancedNaturalMatcher.getSimilarity
    simp [h1, h2, hne]
  · rfl

/-- Witness for C1's theorem: each branch at a concrete input (using the
trivial external capability). -/
theorem combined_getSimilarity_spec_witness :
    EnhancedNaturalMatcher.getSimilarity zeroAlgos "" "John Smith" = some 0 ∧
    EnhancedNaturalMatcher.getSimilarity zeroAlgos "ab" "ab" = some 1 ∧
    EnhancedNaturalMatcher.getSimilarity zeroAlgos "x" "y" =
      (EnhancedMatcher.getSimilarity "x" "y").map fun enhancedScore =>
        round2 ((EnhancedNaturalMatcher.getNaturalScore zeroAlgos "x" "y" + enhancedScore) / 2) :=
  ⟨(combined_getSimilarity_spec zeroAlgos "" "John Smith").1 (Or.inl rfl),
   (combined_getSimilarity_spec zeroAlgos "ab" "ab").2.1 (by decide) (by decide) rfl,
   (combined_getSimilarity_spec zeroAlgos "x" "y").2.2.1 (by decide) (by decide) (by decide)⟩

/-! ## C9 — the first/middle/last partition invariant of `parseName` -/

/-- Dropping the last element and re-appending it (via the JS indexing
`l[l.length - 1]`, modelled as `getD`) reconstructs a nonempty list. -/
theorem dropLast_append_getD (l : List String) : ∀ x : String,
    (x :: l).dropLast ++ [(x :: l).getD ((x :: l).length - 1) ""] = x :: l := by
  induction l with
  | nil => intro x; rfl
  | cons y t ih =>
    intro x
    have h1 : (x :: y :: t).dropLast = x :: (y :: t).dropLast := rfl
    have h2 : (x :: y :: t).getD ((x :: y :: t).length - 1) "" =
        (y :: t).getD ((y :: t).length - 1) "" := by
      simp [List.length_cons]
    rw [h1, h2, List.cons_append, ih y]

/-- The combinatorial core of the partition invariant: the first element (if
any), the elements strictly between first and last (if more than two), and
the last element (if more than one) concatenate back, in order, to the whole
list — with the components written exactly as `parseName` computes them. -/
theorem mainParts_partition (mp : List String) :
    (if 0 < mp.length then [if 0 < mp.length then mp.getD 0 "" else ""] else []) ++
      (if 2 < mp.length then (mp.drop 1).dropLast else []) ++
      (if 1 < mp.length then [if 1 < mp.length then mp.getD (mp.length - 1) "" else ""] else []) =
      mp := by
  match mp with
  | [] => rfl
  | [a] => rfl
  | [a, b] => rfl
  | a :: b :: c :: t =>
    have h0 : 0 < (a :: b :: c :: t).length := by simp
    have h1 : 1 < (a :: b :: c :: t).length := by simp
    have h2 : 2 < (a :: b :: c :: t).length := by simp
    rw [if_pos h0, if_pos h0, if_pos h2, if_pos h1, if_pos h1]
    have hd : (a :: b :: c :: t).getD 0 "" = a := rfl
    have hdrop : ((a :: b :: c :: t).drop 1).dropLast = (b :: c :: t).dropLast := rfl
    have hlast : (a :: b :: c :: t).getD ((a :: b :: c :: t).length - 1) "" =
        (b :: c :: t).getD ((b :: c :: t).length - 1) "" := by
      simp [List.length_cons]
    rw [hd, hdrop, hlast]
    show a :: ((b :: c :: t).dropLast ++ [(b :: c :: t).getD ((b :: c :: t).length - 1) ""]) =
      a :: b :: c :: t
    rw [dropLast_append_getD (c :: t) b]

/-- C9: for every (truthy) input, the parsed `firstName`, `middleNames`, and
`lastName` concatenate, in original token order, to exactly the tokens of
`normalized` that are not classified as a prefix or suffix (classification
by exact match against the reference sets after stripping one trailing
period) — `firstName` present as soon as one such token exists, `lastName`
as soon as two exist. -/
theorem parseName_partition (name : String) (h : name ≠ "") :
    ∃ p : ParsedName, parseName name = JsParse.parsed p ∧
      (let mainParts := (splitOnSpaces p.normalized).filter fun t =>
        !isPrefixTok t && !isSuffixTok t
      (if 0 < mainParts.length then [p.firstName] else []) ++ p.middleNames ++
        (if 1 < mainParts.length then [p.lastName] else []) = mainParts) := by
  refine ⟨parseNameFull name, by simp [parseName, h], ?_⟩
  simp only [parseNameFull]
  exact mainParts_partition _

/-- Witness for C9 at `"Dr. John William Smith Jr."` (normalized to
`"dr john william smith jr"`; the main tokens are `john`, `william`,
`smith`). -/
theorem parseName_partition_witness :
    ("Dr. John William Smith Jr." : String) ≠ "" ∧
    ∃ p : ParsedName, parseName "Dr. John William Smith Jr." = JsParse.parsed p ∧
      (let mainParts := (splitOnSpaces p.normalized).filter fun t =>
        !isPrefixTok t && !isSuffixTok t
      (if 0 < mainParts.length then [p.firstName] else []) ++ p.middleNames ++
        (if 1 < mainParts.length then [p.lastName] else []) = mainParts) :=
  ⟨by decide, parseName_partition "Dr. John William Smith Jr." (by decide)⟩

/-! ## C10 — the initials strategy on single-main-token names -/

/-- Does the name's comparison structure exist and contain at least one token? -/
def hasTokens (s : String) : Bool :=
  match EnhancedMatcher.normalizeNameForComparison s with
  | some n => decide (n.tokens ≠ [])
  | none => false

/-- Does the name's comparison structure exist with an empty `lastName`
(a single-main-token name)? -/
def hasEmptyLastName (s : String) : Bool :=
  match EnhancedMatcher.normalizeNameForComparison s with
  | some n => decide (n.lastName = "")
  | none => false

/-- Do both names' comparison structures exist with the same first-name
initial (in the JS `charAt(0)` sense, where two empty strings agree)? -/
def sameFirstInitial (s1 s2 : String) : Bool :=
  match EnhancedMatcher.normalizeNameForComparison s1,
      EnhancedMatcher.normalizeNameForComparison s2 with
  | some n1, some n2 =>
    decide (EnhancedMatcher.charAt0 n1.firstName = EnhancedMatcher.charAt0 n2.firstName)
  | _, _ => false

/-- C10: when both inputs normalize to structures with at least one token
and empty `lastName` fields, and their first names start with the same
character, the initials strategy returns 0.7 — the two empty last-name
initials compare equal (`''.charAt(0) === ''.charAt(0)` in JS, `none = none`
here) — and hence the structural `getSimilarity`, the max of the four
strategies, is at least 0.7. -/
theorem initials_single_token_spec (s1 s2 : String)
    (h1 : hasTokens s1 = true) (h2 : hasTokens s2 = true)
    (h3 : hasEmptyLastName s1 = true) (h4 : hasEmptyLastName s2 = true)
    (h5 : sameFirstInitial s1 s2 = true) :
    ∃ n1 n2 q, EnhancedMatcher.normalizeNameForComparison s1 = some n1 ∧
      EnhancedMatcher.normalizeNameForComparison s2 = some n2 ∧
      EnhancedMatcher.initialsMatchScore n1 n2 = 7/10 ∧
      EnhancedMatcher.getSimilarity s1 s2 = some q ∧ (7/10 : ℚ) ≤ q := by
  cases hn1 : EnhancedMatcher.normalizeNameForComparison s1 with
  | none => simp [hasTokens, hn1] at h1
  | some n1 =>
    cases hn2 : EnhancedMatcher.normalizeNameForComparison s2 with
    | none => simp [hasTokens, hn2] at h2
    | some n2 =>
      have ht1 : n1.tokens ≠ [] := by simpa [hasTokens, hn1] using h1
      have ht2 : n2.tokens ≠ [] := by simpa [hasTokens, hn2] using h2
      have hl1 : n1.lastName = "" := by simpa [hasEmptyLastName, hn1] using h3
      have hl2 : n2.lastName = "" := by simpa [hasEmptyLastName, hn2] using h4
      have hf : EnhancedMatcher.charAt0 n1.firstName = EnhancedMatcher.charAt0 n2.firstName := by
        simpa [sameFirstInitial, hn1, hn2] using h5
      have hp1 : 0 < n1.tokens.length := List.length_pos.mpr ht1
      have hp2 : 0 < n2.tokens.length := List.length_pos.mpr ht2
      have hscore : EnhancedMatcher.initialsMatchScore n1 n2 = 7/10 := by
        unfold EnhancedMatcher.initialsMatchScore
        simp [hp1, hp2, hf, hl1, hl2]
      have hsim : EnhancedMatcher.getSimilarity s1 s2 =
          some ([EnhancedMatcher.exactMatchScore n1 n2, EnhancedMatcher.tokenSetScore n1 n2,
                 EnhancedMatcher.initialsMatchScore n1 n2,
                 EnhancedMatcher.editDistanceScore n1 n2].foldl max 0) := by
        unfold EnhancedMatcher.getSimilarity
        rw [hn1, hn2]
      refine ⟨n1, n2, _, rfl, rfl, hscore, hsim, ?_⟩
      have hfold : [EnhancedMatcher.exactMatchScore n1 n2, EnhancedMatcher.tokenSetScore n1 n2,
          EnhancedMatcher.initialsMatchScore n1 n2,
          EnhancedMatcher.editDistanceScore n1 n2].foldl max 0 =
          max (max (max (max 0 (EnhancedMatcher.exactMatchScore n1 n2))
            (EnhancedMatcher.tokenSetScore n1 n2)) (EnhancedMatcher.initialsMatchScore n1 n2))
            (EnhancedMatcher.editDistanceScore n1 n2) := by
        simp [List.foldl]
      rw [hfold, hscore]
      exact le_trans (le_max_right _ _) (le_max_left _ _)

/-- Witness for C10 at the one-word names `"al"` and `"ab"` (both normalize
to a single token, empty last name, shared initial `a`). -/
theorem initials_single_token_spec_witness :
    hasTokens "al" = true ∧ hasTokens "ab" = true ∧
    hasEmptyLastName "al" = true ∧ hasEmptyLastName "ab" = true ∧
    sameFirstInitial "al" "ab" = true ∧
    (∃ n1 n2 q, EnhancedMatcher.normalizeNameForComparison "al" = some n1 ∧
      EnhancedMatcher.normalizeNameForComparison "ab" = some n2 ∧
      EnhancedMatcher.initialsMatchScore n1 n2 = 7/10 ∧
      EnhancedMatcher.getSimilarity "al" "ab" = some q ∧ (7/10 : ℚ) ≤ q) :=
  ⟨by decide, by decide, by decide, by decide, by decide,
   initials_single_token_spec "al" "ab" (by decide) (by decide) (by decide) (by decide) (by decide)⟩

/-! ## C7 — the Combined Scorer's group matcher -/

/-- Unpacking a successful `mapOption` run into its pointwise description. -/
theorem mapOption_some_forall2 {α β : Type _} (f : α → Option β) :
    ∀ (l : List α) (out : List β), EnhancedNaturalMatcher.mapOption f l = some out →
      List.Forall₂ (fun a b => f a = some b) l out := by
  intro l
  induction l with
  | nil =>
    intro out h
    simp [EnhancedNaturalMatcher.mapOption] at h
    subst h
    exact List.Forall₂.nil
  | cons a t ih =>
    intro out h
    unfold EnhancedNaturalMatcher.mapOption at h
    cases hfa : f a with
    | none => rw [hfa] at h; simp at h
    | some b =>
      cases hmt : EnhancedNaturalMatcher.mapOption f t with
      | none => rw [hfa, hmt] at h; simp at h
      | some bs =>
        rw [hfa, hmt] at h
        simp only [Option.some.injEq] at h
        subst h
        exact List.Forall₂.cons hfa (ih bs hmt)

/-- C7: a group of size 0 or 1 yields `{score: 1, matches: [], isMatch: true}`;
otherwise, when `matchNameGroup` returns a result, its `matches` list pairs
up one-to-one, in enumeration order (outer index ascending, inner index
ascending, `i < j`), with the group's unordered pairs, each entry carrying
the combined `getSimilarity` of its pair; the score is the arithmetic mean
of the pairwise similarities rounded to 2 decimals, and `isMatch` is
`score >= threshold`. The claim is right about the intended behaviour for
every group, but the pairwise scorer can throw (see C1): the last conjunct
shows `matchNameGroup(["mr", "john"])` faults instead of returning a
result. -/
theorem matchNameGroup_spec (A : StringDistanceAlgos) (m : EnhancedNaturalMatcher.Matcher)
    (nameGroup : List String) :
    (nameGroup.length ≤ 1 →
      EnhancedNaturalMatcher.matchNameGroup A m nameGroup =
        some { score := 1, «matches» := [], isMatch := true }) ∧
    (2 ≤ nameGroup.length →
      ∀ r, EnhancedNaturalMatcher.matchNameGroup A m nameGroup = some r →
        List.Forall₂ (fun (p : String × String) (e : EnhancedNaturalMatcher.MatchEntry) =>
            e.name1 = p.1 ∧ e.name2 = p.2 ∧
              EnhancedNaturalMatcher.getSimilarity A p.1 p.2 = some e.similarity)
          (EnhancedNaturalMatcher.pairsOf nameGroup) r.«matches» ∧
        r.score = round2 ((r.«matches».map fun e => e.similarity).sum /
          (r.«matches».length : ℚ)) ∧
        r.isMatch = decide (m.threshold ≤ r.score)) ∧
    EnhancedNaturalMatcher.matchNameGroup A m ["mr", "john"] = none := by
  refine ⟨?_, ?_, ?_⟩
  · intro h
    unfold EnhancedNaturalMatcher.matchNameGroup
    rw [if_pos h]
  · intro hlen r hr
    unfold EnhancedNaturalMatcher.matchNameGroup at hr
    rw [if_neg (by omega)] at hr
    cases hmo : EnhancedNaturalMatcher.mapOption
        (fun p => (EnhancedNaturalMatcher.getSimilarity A p.1 p.2).map fun s =>
          { name1 := p.1, name2 := p.2, similarity := s : EnhancedNaturalMatcher.MatchEntry })
        (EnhancedNaturalMatcher.pairsOf nameGroup) with
    | none => rw [hmo] at hr; simp at hr
    | some entries =>
      rw [hmo] at hr
      simp only [Option.some.injEq] at hr
      subst hr
      refine ⟨?_, rfl, rfl⟩
      refine List.Forall₂.imp ?_ (mapOption_some_forall2 _ _ entries hmo)
      intro p e hpe
      rw [Option.map_eq_some'] at hpe
      obtain ⟨s, hs, he⟩ := hpe
      subst he
      exact ⟨rfl, rfl, hs⟩
  · rfl

/-- Witness for C7's theorem: the empty group, and the two-element group
`["x", "y"]` whose single pair scores 0.5 under the trivial capability
(score `round2(0.5/1) = 0.5`, `isMatch` false at the default threshold). -/
theorem matchNameGroup_spec_witness :
    EnhancedNaturalMatcher.matchNameGroup zeroAlgos (EnhancedNaturalMatcher.create none)
      ([] : List String) = some { score := 1, «matches» := [], isMatch := true } ∧
    EnhancedNaturalMatcher.matchNameGroup zeroAlgos (EnhancedNaturalMatcher.create none)
      ["x", "y"] =
      some { score := 1/2, «matches» := [{ name1 := "x", name2 := "y", similarity := 1/2 }],
             isMatch := false } ∧
    List.Forall₂ (fun (p : String × String) (e : EnhancedNaturalMatcher.MatchEntry) =>
        e.name1 = p.1 ∧ e.name2 = p.2 ∧
          EnhancedNaturalMatcher.getSimilarity zeroAlgos p.1 p.2 = some e.similarity)
      (EnhancedNaturalMatcher.pairsOf ["x", "y"])
      [{ name1 := "x", name2 := "y", similarity := 1/2 }] ∧
    (1/2 : ℚ) = round2 ((([{ name1 := "x", name2 := "y", similarity := (1/2 : ℚ) }] :
        List EnhancedNaturalMatcher.MatchEntry).map fun e => e.similarity).sum /
      (([{ name1 := "x", name2 := "y", similarity := (1/2 : ℚ) }] :
        List EnhancedNaturalMatcher.MatchEntry).length : ℚ)) ∧
    false = decide ((EnhancedNaturalMatcher.create none).threshold ≤ (1/2 : ℚ)) := by
  have hr : EnhancedNaturalMatcher.matchNameGroup zeroAlgos
      (EnhancedNaturalMatcher.create none) ["x", "y"] =
      some { score := 1/2, «matches» := [{ name1 := "x", name2 := "y", similarity := 1/2 }],
             isMatch := false } := by
    norm_num [EnhancedNaturalMatcher.matchNameGroup, EnhancedNaturalMatcher.pairsOf,
      EnhancedNaturalMatcher.mapOption, getSimilarity_x_y, EnhancedNaturalMatcher.create,
      round2, round_eq]
  have h2 := (matchNameGroup_spec zeroAlgos (EnhancedNaturalMatcher.create none)
    ["x", "y"]).2.1 (by decide)
    { score := 1/2, «matches» := [{ name1 := "x", name2 := "y", similarity := 1/2 }],
      isMatch := false } hr
  exact ⟨(matchNameGroup_spec zeroAlgos (EnhancedNaturalMatcher.create none) []).1 (by decide),
    hr, h2.1, h2.2.1, h2.2.2⟩

end NameMatch
